import Mathlib

/-!
# Verification of the NTRClientJS protocol engine

A shallow embedding of the NTRClientJS client (the `SocketBase` byte
reassembler, the `NtrClient` frame decode loop, request table, dispatcher,
response parsers, heartbeat and command encoders, and the derived memory
scanner `search`).  Bytes are modelled as `Nat` values below 256, JS
machine integers as `Nat` with explicit `% 2^32` where the code stores a
value through `DataView.setUint32`, JS promise resolution/rejection as
explicit event lists, and a thrown JS exception that escapes a function as
`Except.error`.  Payload text decoding models `TextDecoder` on ASCII data
(one byte per character), which covers the entire text sub-protocol.
-/

set_option maxRecDepth 16000

namespace NtrClientJS

/-! ## Byte reassembler (`SocketBase` of ntrclient.ts)

A pending `read(n)` is identified by the order in which it was issued; the
JS promise's `resolve`/`reject` slots become `SockEvent`s that name that
identifier. -/

/-- A queued `read` promise: `{ resolve, reject, length }`. -/
structure PendingRead where
  length : Nat
  id : Nat
deriving Repr, DecidableEq

/-- Resolution or rejection of one reassembler `read` promise. -/
inductive SockEvent where
  | resolved (id : Nat) (bytes : List Nat)
  | rejected (id : Nat) (msg : String)
deriving Repr, DecidableEq

/-- State of `SocketBase`: `currentBuffer`, the FIFO `nextPromises`, and the
`disconnected` flag. -/
structure SocketBase where
  currentBuffer : List Nat
  nextPromises : List PendingRead
  disconnected : Bool
deriving Repr, DecidableEq

/-- JS `TypedArray.subarray(start, stop)`: both indices are clamped into
`[0, length]`, and an empty view results when `start ≥ stop`. -/
def jsSubarray (buf : List Nat) (start stop : Nat) : List Nat :=
  (buf.take stop).drop start

/-- The `while (this.nextPromises.length)` loop inside
`SocketBase.receiveData`: each head promise whose `length` fits the *whole*
buffer (the source compares against `currentBuffer.length`, not against the
bytes remaining past `startOffset`) is shifted and resolved with
`currentBuffer.subarray(startOffset, startOffset + length)`.
Returns the remaining queue, the final `startOffset`, and the events. -/
def receiveLoop (proms : List PendingRead) (buf : List Nat) (startOffset : Nat) :
    List PendingRead × Nat × List SockEvent :=
  match proms with
  | [] => ([], startOffset, [])
  | p :: rest =>
      if p.length ≤ buf.length then
        let r := receiveLoop rest buf (startOffset + p.length)
        (r.1, r.2.1, .resolved p.id (jsSubarray buf startOffset (startOffset + p.length)) :: r.2.2)
      else
        (p :: rest, startOffset, [])

/-- `SocketBase.receiveData(data)`: append `data` to `currentBuffer`, run the
resolution loop, then slice the consumed prefix off the buffer
(`currentBuffer = currentBuffer.subarray(startOffset)`). -/
def SocketBase.receiveData (s : SocketBase) (data : List Nat) : SocketBase × List SockEvent :=
  let buf := s.currentBuffer ++ data
  let r := receiveLoop s.nextPromises buf 0
  ({ s with currentBuffer := buf.drop r.2.1, nextPromises := r.1 }, r.2.2)

/-- Outcome of `SocketBase.read(bytes)`: the synchronous fast path returns
bytes at once, a disconnected socket rejects at once, otherwise a promise
with the given fresh id is queued. -/
inductive ReadOutcome where
  | sync (bytes : List Nat)
  | rejectedNow (msg : String)
  | pending (id : Nat)
deriving Repr, DecidableEq

/-- `SocketBase.read(bytes)`: if no promise is queued and the buffer already
holds `bytes` bytes, return them synchronously and slice them off; else if
disconnected, reject; else push `{ resolve, reject, length }`. -/
def SocketBase.read (s : SocketBase) (bytes : Nat) (freshId : Nat) :
    SocketBase × ReadOutcome :=
  if s.nextPromises.isEmpty ∧ bytes ≤ s.currentBuffer.length then
    ({ s with currentBuffer := s.currentBuffer.drop bytes }, .sync (s.currentBuffer.take bytes))
  else if s.disconnected then
    (s, .rejectedNow "Connection closed.")
  else
    ({ s with nextPromises := s.nextPromises ++ [⟨bytes, freshId⟩] }, .pending freshId)

/-- `SocketBase.onDisconnect()`: set `disconnected`, reject every queued read
promise with `Connection closed.`, clear the queue. -/
def SocketBase.onDisconnect (s : SocketBase) : SocketBase × List SockEvent :=
  ({ s with disconnected := true, nextPromises := [] },
   s.nextPromises.map (fun p => .rejected p.id "Connection closed."))

/-- A caller-facing reassembler operation, for replaying scenarios against
`SocketBase`: issue a `read(n)` or feed a data chunk. -/
inductive SockOp where
  | read (n : Nat)
  | feed (chunk : List Nat)
deriving Repr, DecidableEq

/-- Replay a list of operations against a `SocketBase`, numbering reads in
issue order (`nextId`) and recording every resolution/rejection, with a
synchronous `read` recorded as an immediate resolution. -/
def runOps (s : SocketBase) (nextId : Nat) : List SockOp → SocketBase × List SockEvent
  | [] => (s, [])
  | SockOp.read n :: rest =>
      let r := s.read n nextId
      let evs := match r.2 with
        | .sync bytes => [SockEvent.resolved nextId bytes]
        | .rejectedNow msg => [SockEvent.rejected nextId msg]
        | .pending _ => []
      let t := runOps r.1 (nextId + 1) rest
      (t.1, evs ++ t.2)
  | SockOp.feed chunk :: rest =>
      let r := s.receiveData chunk
      let t := runOps r.1 nextId rest
      (t.1, r.2 ++ t.2)

/-! ## Text sub-protocol: lines and hex fields

`handlePacket` turns a payload into lines with
`dataToString(data).match(/^.+$/gm)`: the maximal nonempty runs of
non-line-terminator characters, or JS `null` (here `none`) when there is no
such run.  The regex character class `[\da-f]` accepts digits and lowercase
`a`–`f` only. -/

/-- `TextDecoder().decode(data)` on ASCII payloads: one byte per character. -/
def dataToString (data : List Nat) : String :=
  String.mk (data.map Char.ofNat)

/-- A line-terminator character for the `m`-flag anchors and the `.`
character class. -/
def isLineTerm (c : Char) : Bool :=
  c = '\n' || c = '\r'

/-- The maximal nonempty runs of non-terminator characters, i.e. the
matches of `/^.+$/gm`; `acc` holds the current run reversed. -/
def lineRunsAux : List Char → List Char → List (List Char)
  | [], acc => if acc.isEmpty then [] else [acc.reverse]
  | c :: cs, acc =>
      if isLineTerm c then
        if acc.isEmpty then lineRunsAux cs [] else acc.reverse :: lineRunsAux cs []
      else lineRunsAux cs (c :: acc)

/-- JS `str.match(/^.+$/gm)`: the list of nonempty lines, or `none` when the
string contains no nonempty line (JS returns `null`). -/
def jsMatchLines (s : String) : Option (List String) :=
  let ls := (lineRunsAux s.toList []).map String.mk
  if ls.isEmpty then none else some ls

/-- A character accepted by the regex class `[\da-f]`. -/
def isLowerHex (c : Char) : Bool :=
  c.isDigit || ('a' ≤ c && c ≤ 'f')

/-- Value of one `[\da-f]` character. -/
def hexDigitVal (c : Char) : Nat :=
  if c.isDigit then c.toNat - 48 else c.toNat - 87

/-- Consume exactly `n` `[\da-f]` characters, returning their big-endian
hex value (as `parseInt(_, 16)` computes on the captured group) and the
remaining characters. -/
def takeHex : Nat → List Nat → List Char → Option (Nat × List Char)
  | 0, acc, cs => some (acc.foldl (fun v d => v * 16 + d) 0, cs)
  | _ + 1, _, [] => none
  | n + 1, acc, c :: cs =>
      if isLowerHex c then takeHex n (acc ++ [hexDigitVal c]) cs else none

/-- Consume an exact literal. -/
def takeLit : List Char → List Char → Option (List Char)
  | [], cs => some cs
  | _ :: _, [] => none
  | l :: ls, c :: cs => if c = l then takeLit ls cs else none

/-- `^[\da-f]{8}$` as a whole-line test. -/
def isHex8Line (s : String) : Bool :=
  s.toList.length = 8 && s.toList.all isLowerHex

/-- Value of a whole line of exactly 8 `[\da-f]` digits. -/
def hex8Val (s : String) : Nat :=
  s.toList.foldl (fun v c => v * 16 + hexDigitVal c) 0

/-- JS `parseInt(s, 16)`: skip leading whitespace, optional sign, optional
`0x`/`0X` prefix, then the longest prefix of hexadecimal digits (either
case); `none` models `NaN` (no digit found).  Used for the thread register
words, the only place the source calls `parseInt` on unvalidated input. -/
def parseIntHexErased (s : String) : Option Int :=
  let cs := s.toList.dropWhile (fun c => c = ' ' || c = '\t' || c = '\n' || c = '\r')
  let signed : Bool × List Char :=
    match cs with
    | '-' :: r => (true, r)
    | '+' :: r => (false, r)
    | _ => (false, cs)
  let body : List Char :=
    match signed.2 with
    | '0' :: 'x' :: r => r
    | '0' :: 'X' :: r => r
    | r => r
  let isAnyHex : Char → Bool := fun c =>
    c.isDigit || ('a' ≤ c && c ≤ 'f') || ('A' ≤ c && c ≤ 'F')
  let anyHexVal : Char → Nat := fun c =>
    if c.isDigit then c.toNat - 48
    else if 'a' ≤ c && c ≤ 'f' then c.toNat - 87
    else c.toNat - 55
  let digits := body.takeWhile isAnyHex
  if digits.isEmpty then none
  else
    let v : Int := digits.foldl (fun v c => v * 16 + (anyHexVal c : Int)) 0
    some (if signed.1 then -v else v)

/-! ## Response data model (as resolved by the parsers) -/

/-- One line of the process list. -/
structure ProcessDescriptor where
  pid : Nat
  name : String
  tid : Nat
  kpobj : Nat
deriving Repr, DecidableEq

/-- One thread of the thread list; `data` is the 128-byte register dump. -/
structure ThreadDescriptor where
  tid : Nat
  pc : Nat
  lr : Nat
  data : List Nat
deriving Repr, DecidableEq

/-- Resolved value of a thread-list request. -/
structure ThreadListResult where
  threads : List ThreadDescriptor
  recommendedPc : List Nat
  recommendedLr : List Nat
deriving Repr, DecidableEq

/-- One line of the memory layout. -/
structure MemRegion where
  start : Nat
  stop : Nat
  size : Nat
deriving Repr, DecidableEq

/-- One line of the handle list. -/
structure HandleDescriptor where
  h : Nat
  p : Nat
deriving Repr, DecidableEq

/-- A value a pending request resolves with. -/
inductive RespValue where
  | unit
  | processes (l : List ProcessDescriptor)
  | threadList (t : ThreadListResult)
  | memlayout (l : List MemRegion)
  | handles (l : List HandleDescriptor)
  | memoryBytes (b : List Nat)
deriving Repr, DecidableEq

/-- Resolution or rejection of the request-table promise registered under
`key`. -/
inductive RpEvent where
  | resolve (key : Nat) (val : RespValue)
  | reject (key : Nat) (msg : String)
deriving Repr, DecidableEq

/-- The table key an event touches. -/
def RpEvent.key : RpEvent → Nat
  | .resolve k _ => k
  | .reject k _ => k

/-! ## Per-line grammars (the source's regular expressions) -/

/-- `^pid: 0x([\da-f]{8}), pname: *([^,]+), tid: ([\da-f]{16}), kpobj: ([\da-f]{8})$`.
The `pname` segment runs to the first comma after `pname:`; since `[^,]+`
cannot cross a comma, the split is forced.  The greedy ` *` makes the
captured name the segment with its leading spaces removed, except that an
all-space segment backtracks to capture exactly one space. -/
def parseProcessLine (s : String) : Option ProcessDescriptor := do
  let cs ← takeLit "pid: 0x".toList s.toList
  let r1 ← takeHex 8 [] cs
  let cs ← takeLit ", pname:".toList r1.2
  let seg := cs.takeWhile (fun c => c ≠ ',')
  let rest := cs.drop seg.length
  if seg.isEmpty then none
  let nameCs := seg.dropWhile (fun c => c = ' ')
  let name := if nameCs.isEmpty then " " else String.mk nameCs
  let rest ← takeLit ", tid: ".toList rest
  let r2 ← takeHex 16 [] rest
  let rest ← takeLit ", kpobj: ".toList r2.2
  let r3 ← takeHex 8 [] rest
  if r3.2.isEmpty then
    some ⟨r1.1, name, r2.1, r3.1⟩
  else none

/-- `^([\da-f]{8}) - ([\da-f]{8}) , size: ([\da-f]{8})$`. -/
def parseMemRegionLine (s : String) : Option MemRegion := do
  let r1 ← takeHex 8 [] s.toList
  let cs ← takeLit " - ".toList r1.2
  let r2 ← takeHex 8 [] cs
  let cs ← takeLit " , size: ".toList r2.2
  let r3 ← takeHex 8 [] cs
  if r3.2.isEmpty then some ⟨r1.1, r2.1, r3.1⟩ else none

/-- `^h: ([\da-f]{8}), p: ([\da-f]{8})$`. -/
def parseHandleLine (s : String) : Option HandleDescriptor := do
  let cs ← takeLit "h: ".toList s.toList
  let r1 ← takeHex 8 [] cs
  let cs ← takeLit ", p: ".toList r1.2
  let r2 ← takeHex 8 [] cs
  if r2.2.isEmpty then some ⟨r1.1, r2.1⟩ else none

/-- `^tid: 0x([\da-f]{8})$`. -/
def parseTidLine (s : String) : Option Nat := do
  let cs ← takeLit "tid: 0x".toList s.toList
  let r ← takeHex 8 [] cs
  if r.2.isEmpty then some r.1 else none

/-- `^pc: ([\da-f]{8}), lr: ([\da-f]{8})$`. -/
def parsePcLrLine (s : String) : Option (Nat × Nat) := do
  let cs ← takeLit "pc: ".toList s.toList
  let r1 ← takeHex 8 [] cs
  let cs ← takeLit ", lr: ".toList r1.2
  let r2 ← takeHex 8 [] cs
  if r2.2.isEmpty then some (r1.1, r2.1) else none

/-! ## Request table and client state (`NtrClient` of ntrclient.ts)

`this.promises` is a JS object keyed by the registration sequence number;
each entry holds `resolve`/`reject` slots and a `type` string.  Here the
table maps the key to the `type` string and resolution is an `RpEvent`. -/

/-- The request table: registration key to expected-kind string. -/
abbrev PromMap := List (Nat × String)

/-- `this.promises[k]`. -/
def promLookup (m : PromMap) (k : Nat) : Option String :=
  match m with
  | [] => none
  | (k', v) :: rest => if k' = k then some v else promLookup rest k

/-- `delete this.promises[k]`. -/
def promErase (m : PromMap) (k : Nat) : PromMap :=
  m.filter (fun p => p.1 ≠ k)

/-- `this.promises[k] = { resolve, reject, type }`. -/
def promInsert (m : PromMap) (k : Nat) (v : String) : PromMap :=
  (k, v) :: promErase m k

/-- Mutable state of an `NtrClient`: the sequence counter, the heartbeat
permission flag and the request table.  The constructor sets
`seqNumber = 1000`, `canSendHeartbeat = true`, `promises = {}`. -/
structure ClientState where
  seqNumber : Nat
  canSendHeartbeat : Bool
  promises : PromMap
deriving Repr, DecidableEq

/-- The client state as built by the `NtrClient` constructor. -/
def initialState : ClientState :=
  ⟨1000, true, []⟩

/-- The frame written by `sendPacket`: magic, seq, type, cmd, the 16
argument words as stored in the 84-byte buffer, and the declared payload
length.  Every field is stored through `DataView.setUint32`. -/
structure SentPacket where
  magic : Nat
  seq : Nat
  ptype : Nat
  cmd : Nat
  args : List Nat
  dataLen : Nat
deriving Repr, DecidableEq

/-- The 16 argument words of the header buffer: `args[i]` for
`i < min(16, args.length)` (each coerced mod `2^32` by `setUint32`), zero
elsewhere. -/
def padArgs16 (args : List Nat) : List Nat :=
  (args.take 16).map (fun a => a % 2 ^ 32) ++ List.replicate (16 - args.length) 0

/-- `NtrClient.sendPacket(type, cmd, args, dataLen)`: write the 84-byte
header with the current `seqNumber`, then advance `seqNumber` by 1000. -/
def NtrClient.sendPacket (st : ClientState) (ptype cmd : Nat) (args : List Nat)
    (dataLen : Nat) : ClientState × SentPacket :=
  ({ st with seqNumber := st.seqNumber + 1000 },
   ⟨0x12345678, st.seqNumber % 2 ^ 32, ptype % 2 ^ 32, cmd % 2 ^ 32,
    padArgs16 args, dataLen % 2 ^ 32⟩)

/-! ## Response handlers

Each handler receives the lines computed by `handlePacket` (`none` models
the JS `null` a matchless `String.match` returns).  `Except.error ()`
models a JS exception escaping the handler into the decode loop's `catch`
(which tears the connection down); `.ok evs` is the list of promise
resolutions/rejections it performed. -/

/-- The `try { resolve(<parse>) } catch { reject(new Error(msg)) }` idiom
shared by the parsers: resolve with the parsed value, or reject with the
handler's format error when parsing threw. -/
def resolveOr (seq : Nat) (msg : String) (p : Option RespValue) :
    Except Unit (List RpEvent) :=
  match p with
  | some v => .ok [.resolve seq v]
  | none => .ok [.reject seq msg]

/-- `handleProcesses`: the last line must be the terminator, every other
line must match the process grammar; a `null` lines value throws on
`lines.length` before any `try`. -/
def handleProcesses (seq : Nat) (lines : Option (List String)) :
    Except Unit (List RpEvent) :=
  match lines with
  | none => .error ()
  | some l =>
      if l.getLast? ≠ some "end of process list." then
        .ok [.reject seq "Unexpected reply for process list."]
      else
        resolveOr seq "Response does not match expected format for process list."
          ((l.dropLast.mapM parseProcessLine).map RespValue.processes)

/-- The 128-byte register dump of one thread line: the line is split on
single spaces, the first 32 pieces are parsed with `parseInt(_, 16)` (a
missing or digit-less piece is `NaN` and throws) and stored little-endian
through `setUint32`. -/
def parseRegisterDump (line : String) : Option (List Nat) := do
  let pieces := line.splitOn " "
  let vals ← (List.range 32).mapM (fun j => do
      let piece ← pieces[j]?
      let v ← parseIntHexErased piece
      pure (v % (2 ^ 32 : Int)).toNat)
  pure (vals.map (fun v => [v % 256, v / 256 % 256, v / 65536 % 256, v / 16777216 % 256])).flatten

/-- The `for (i = 0; lines[i].startsWith('tid: '); i += 3)` loop of
`handleThreads`: reading past the end of `lines` (so that `lines[i]` is
`undefined`) throws, as does any malformed triple; a line not starting with
`tid: ` ends the loop and is returned with the lines after it. -/
def threadTriples : List String → Option (List ThreadDescriptor × List String)
  | [] => none
  | line :: rest =>
      if ¬ line.startsWith "tid: " then some ([], line :: rest)
      else do
        let tid ← parseTidLine line
        let pcLine ← rest[0]?
        let pclr ← parsePcLrLine pcLine
        let regLine ← rest[1]?
        let dump ← parseRegisterDump regLine
        let r ← threadTriples (rest.drop 2)
        pure (⟨tid, pclr.1, pclr.2, dump⟩ :: r.1, r.2)
  termination_by l => l.length
  decreasing_by
    simp only [List.length_drop, List.length_cons]
    omega

/-- `handleThreads`: thread triples, then a literal `recommend pc:`, then
standalone 8-hex lines, then `recommend lr:`, then 8-hex lines, then the
end of the input; every deviation (including a `null` lines value, whose
`lines[0]` access throws inside the `try`) rejects with the thread-list
format error. -/
def handleThreads (seq : Nat) (lines : Option (List String)) :
    Except Unit (List RpEvent) :=
  let parsed : Option ThreadListResult := do
    let l ← lines
    let r ← threadTriples l
    let afterPc ← match r.2 with
      | pcMark :: restPc => if pcMark = "recommend pc:" then some restPc else none
      | [] => none
    let pcs := afterPc.takeWhile isHex8Line
    let afterPcs := afterPc.drop pcs.length
    let afterLr ← match afterPcs with
      | lrMark :: restLr => if lrMark = "recommend lr:" then some restLr else none
      | [] => none
    let lrs := afterLr.takeWhile isHex8Line
    let leftover := afterLr.drop lrs.length
    if leftover.isEmpty then
      some ⟨r.1, pcs.map hex8Val, lrs.map hex8Val⟩
    else none
  resolveOr seq "Response does not match expected format for thread list."
    (parsed.map RespValue.threadList)

/-- `handleMemlayout`: first line `valid memregions:`, last line
`end of memlayout.`, interior lines match the region grammar; everything,
including a `null` lines value, is inside the `try`. -/
def handleMemlayout (seq : Nat) (lines : Option (List String)) :
    Except Unit (List RpEvent) :=
  let parsed : Option (List MemRegion) := do
    let l ← lines
    if l.head? = some "valid memregions:" ∧ l.getLast? = some "end of memlayout." then
      (l.drop 1).dropLast.mapM parseMemRegionLine
    else none
  resolveOr seq "Response does not match expected format for memlayout."
    (parsed.map RespValue.memlayout)

/-- `handleHandles`: last line `done`, every other line matches the handle
grammar; everything, including a `null` lines value, is inside the `try`. -/
def handleHandles (seq : Nat) (lines : Option (List String)) :
    Except Unit (List RpEvent) :=
  let parsed : Option (List HandleDescriptor) := do
    let l ← lines
    if l.getLast? = some "done" then l.dropLast.mapM parseHandleLine else none
  resolveOr seq "Response does not match expected format for handles."
    (parsed.map RespValue.handles)

/-- `handleHello`: exactly one line `hello` resolves; any other line list
rejects with the joined text; a `null` lines value throws on
`lines.length` (no `try`). -/
def handleHello (seq : Nat) (lines : Option (List String)) :
    Except Unit (List RpEvent) :=
  match lines with
  | none => .error ()
  | some l =>
      if l = ["hello"] then .ok [.resolve seq .unit]
      else .ok [.reject seq ("Unexpected reply to hello: " ++ String.intercalate "\n" l)]

/-- `handleReadMemoryText`: anything but the single line `finished` rejects
the pending read; `finished` performs nothing (the bytes arrive via
cmd 9); a `null` lines value throws on `lines.length` (no `try`). -/
def handleReadMemoryText (seq : Nat) (lines : Option (List String)) :
    Except Unit (List RpEvent) :=
  match lines with
  | none => .error ()
  | some l =>
      if l = ["finished"] then .ok []
      else .ok [.reject seq "Did not receive memory."]

/-- `handleReadMemoryData(seq, data)`: look up the table under `seq + 1000`;
a missing entry is ignored, a missing payload rejects, a payload resolves
with the raw bytes. -/
def handleReadMemoryData (st : ClientState) (seq : Nat) (data : Option (List Nat)) :
    List RpEvent :=
  match promLookup st.promises (seq + 1000) with
  | none => []
  | some _ =>
      match data with
      | none => [.reject (seq + 1000) "Did not receive data."]
      | some d => [.resolve (seq + 1000) (.memoryBytes d)]

/-- The `switch (type)` of `handlePacket`'s cmd-0 arm. -/
def dispatchByKind (t : String) (seq : Nat) (lines : Option (List String)) :
    Except Unit (List RpEvent) :=
  if t = "processes" then handleProcesses seq lines
  else if t = "threads" then handleThreads seq lines
  else if t = "memlayout" then handleMemlayout seq lines
  else if t = "handle" then handleHandles seq lines
  else if t = "hello" then handleHello seq lines
  else if t = "memory" then handleReadMemoryText seq lines
  else .ok [.reject seq ("No handler registered for " ++ t ++ ".")]

/-- The line list `handlePacket` hands a cmd-0 handler:
`data !== undefined ? dataToString(data).match(/^.+$/gm) : []`
(an absent payload gives the empty array, a matchless payload gives JS
`null`, here `none`). -/
def packetLines (data : Option (List Nat)) : Option (List String) :=
  match data with
  | some d => jsMatchLines (dataToString d)
  | none => some []

/-- The `switch (cmd)` statement of `NtrClient.handlePacket`: a cmd-0 frame
first sets the heartbeat permission flag, then dispatches to the registered
handler when the table holds the frame's `seq`; a cmd-9 frame runs the
raw-memory correlation; other cmds do nothing.  `.error ()` is a handler
exception escaping into `handleData`'s `catch`. -/
def handlePacketStep (st : ClientState) (cmd seq : Nat) (data : Option (List Nat)) :
    Except Unit (ClientState × List RpEvent) :=
  if cmd = 0 then
    match promLookup st.promises seq with
    | none => .ok ({ st with canSendHeartbeat := true }, [])
    | some t =>
        match dispatchByKind t seq (packetLines data) with
        | .error e => .error e
        | .ok evs => .ok ({ st with canSendHeartbeat := true }, evs)
  else if cmd = 9 then
    .ok (st, handleReadMemoryData st seq data)
  else
    .ok (st, [])

/-- `NtrClient.handlePacket(cmd, seq, data)`: run the `switch`, then (unless
a handler threw) execute
`if (this.promises[seq] !== undefined) delete this.promises[seq];` — the
deletion is keyed by the frame's own `seq`, not by the cmd-9 lookup key. -/
def handlePacket (st : ClientState) (cmd seq : Nat) (data : Option (List Nat)) :
    Except Unit (ClientState × List RpEvent) :=
  match handlePacketStep st cmd seq data with
  | .error e => .error e
  | .ok r => .ok ({ r.1 with promises := promErase r.1.promises seq }, r.2)

/-! ## Command encoders -/

/-- Result of a request/response command: the new state, the sent frame and
the key under which the pending request was registered
(`const seq = this.seqNumber` *after* `sendPacket` returned). -/
structure RequestResult where
  state : ClientState
  packet : SentPacket
  key : Nat
deriving Repr, DecidableEq

/-- Send a request-bearing packet and register its pending entry under the
already-advanced sequence number. -/
def requestCommand (st : ClientState) (ptype cmd : Nat) (args : List Nat)
    (kind : String) : RequestResult :=
  let r := NtrClient.sendPacket st ptype cmd args 0
  let seq := r.1.seqNumber
  ⟨{ r.1 with promises := promInsert r.1.promises seq kind }, r.2, seq⟩

/-- `NtrClient.hello()`: `(0, 3)`, kind `hello`. -/
def NtrClient.hello (st : ClientState) : RequestResult :=
  requestCommand st 0 3 [] "hello"

/-- `NtrClient.listProcesses()`: `(0, 5)`, kind `processes`. -/
def NtrClient.listProcesses (st : ClientState) : RequestResult :=
  requestCommand st 0 5 [] "processes"

/-- `NtrClient.listThreads(pid)`: `(0, 7)`, kind `threads`. -/
def NtrClient.listThreads (st : ClientState) (pid : Nat) : RequestResult :=
  requestCommand st 0 7 [pid] "threads"

/-- `NtrClient.getMemlayout(pid)`: `(0, 8)`, kind `memlayout`. -/
def NtrClient.getMemlayout (st : ClientState) (pid : Nat) : RequestResult :=
  requestCommand st 0 8 [pid] "memlayout"

/-- `NtrClient.queryHandle(pid)`: `(0, 12)`, kind `handle`. -/
def NtrClient.queryHandle (st : ClientState) (pid : Nat) : RequestResult :=
  requestCommand st 0 12 [pid] "handle"

/-- `NtrClient.readMemory(addr, size, pid)`: `(0, 9)` with args
`[pid, addr, size]`, kind `memory`. -/
def NtrClient.readMemory (st : ClientState) (addr size pid : Nat) : RequestResult :=
  requestCommand st 0 9 [pid, addr, size] "memory"

/-- `NtrClient.heartbeat()`: when the permission flag is set, clear it and
send a bare `(0, 0)` packet; otherwise do nothing.  Returns the packets
written by the tick. -/
def NtrClient.heartbeat (st : ClientState) : ClientState × List SentPacket :=
  if st.canSendHeartbeat then
    let r := NtrClient.sendPacket { st with canSendHeartbeat := false } 0 0 [] 0
    (r.1, [r.2])
  else
    (st, [])

/-- `NtrClient.remoteplay(priorityMode, priorityFactor, quality, qosValue)`:
the source computes `const num = qosValue * 1024 * 1024 / 8;` but never
uses it; the packet sent is `(0, 901)` with the two arguments
`priorityMode << 8 | priorityFactor` and `quality`. -/
def NtrClient.remoteplay (st : ClientState) (priorityMode priorityFactor quality : Nat)
    (qosValue : Nat) : ClientState × SentPacket :=
  let _num := qosValue * 1024 * 1024 / 8
  NtrClient.sendPacket st 0 901 [Nat.lor (Nat.shiftLeft priorityMode 8) priorityFactor, quality] 0

/-! ## Frame codec and the decode loop (`NtrClient.handleData`) -/

/-- Little-endian `getUint32` over a byte list (the header reads; the
84-byte buffer always covers offset + 4). -/
def readU32 (b : List Nat) (off : Nat) : Nat :=
  b.getD off 0 + 256 * b.getD (off + 1) 0 + 65536 * b.getD (off + 2) 0 +
    16777216 * b.getD (off + 3) 0

/-- Little-endian bytes of a `u32` value. -/
def u32leBytes (v : Nat) : List Nat :=
  [v % 256, v / 256 % 256, v / 65536 % 256, v / 16777216 % 256]

/-- The 84-byte wire encoding of a header (`magic`, `seq`, `type`, `cmd`,
16 argument words, `dataLen`), for building test frames. -/
def encodeHeader (magic seq ptype cmd : Nat) (args : List Nat) (dataLen : Nat) : List Nat :=
  u32leBytes magic ++ u32leBytes seq ++ u32leBytes ptype ++ u32leBytes cmd ++
    ((padArgs16 args).map u32leBytes).flatten ++ u32leBytes dataLen

/-- One `handlePacket` invocation made by the decode loop. -/
structure DispatchCall where
  cmd : Nat
  seq : Nat
  payload : Option (List Nat)
deriving Repr, DecidableEq

/-- How the decode loop left off. -/
inductive LoopExit where
  /-- Suspended inside a reassembler `read`, still alive. -/
  | waiting
  /-- Returned after a magic mismatch: no error was raised and no
  disconnect happened, but the loop never re-arms itself. -/
  | halted
deriving Repr, DecidableEq

/-- `NtrClient.handleData` replayed against the total byte stream the
socket delivers: read 84 header bytes (suspending when fewer are
available), decode the fields little-endian, **return** on a magic
mismatch (the recursive `this.handleData()` re-arm at the end of the
`try` block is skipped), otherwise pull the declared payload and invoke
`handlePacket`, then loop.  Returns the `handlePacket` calls made, in
order, and how the loop left off.  `fuel` bounds the number of loop
iterations replayed; a finite byte stream is fully consumed by any
`fuel > stream.length / 84`, and exhausting it reports the loop as still
`waiting`. -/
def handleDataLoop (fuel : Nat) (stream : List Nat) : List DispatchCall × LoopExit :=
  match fuel with
  | 0 => ([], .waiting)
  | fuel + 1 =>
      if stream.length < 84 then
        ([], .waiting)
      else
        let hdr := stream.take 84
        let magic := readU32 hdr 0
        let seq := readU32 hdr 4
        let cmd := readU32 hdr 12
        let dataLen := readU32 hdr 80
        let rest := stream.drop 84
        if magic ≠ 0x12345678 then
          ([], .halted)
        else if dataLen ≠ 0 then
          if rest.length < dataLen then
            ([], .waiting)
          else
            let r := handleDataLoop fuel (rest.drop dataLen)
            (⟨cmd, seq, some (rest.take dataLen)⟩ :: r.1, r.2)
        else
          let r := handleDataLoop fuel rest
          (⟨cmd, seq, none⟩ :: r.1, r.2)

/-! ## Connection lifecycle -/

/-- A live connection: the client state, the socket-side reassembler and
whether the heartbeat interval timer is armed. -/
structure Connection where
  client : ClientState
  sockBuf : SocketBase
  heartbeatArmed : Bool
deriving Repr, DecidableEq

/-- `NtrClient.disconnect()`: `clearInterval(this.heartbeatId)` and
`this.sock.close()` (whose eventual `close` event is `Connection.onClose`). -/
def NtrClient.disconnect (c : Connection) : Connection :=
  { c with heartbeatArmed := false }

/-- The socket `close` event: `SocketBase.onDisconnect` rejects every
queued reassembler read with `Connection closed.`; the decode loop's
suspended read rejects, its `catch` runs `this.disconnect()`, cancelling
the heartbeat timer.  Nothing on this path touches `client.promises`.
Returns the new connection and the read-promise rejections — the only
promise failures the teardown path produces. -/
def Connection.onClose (c : Connection) : Connection × List SockEvent :=
  let r := c.sockBuf.onDisconnect
  (NtrClient.disconnect { c with sockBuf := r.1 }, r.2)

/-! ## Memory scanner (`search` of searchmem.ts) -/

/-- `DataView.getUint32(off, true)` over the returned buffer: little-endian
word, or `none` (a thrown `RangeError`) when `off + 4` exceeds the buffer
length. -/
def readU32LE (b : List Nat) (off : Nat) : Option Nat :=
  if off + 4 ≤ b.length then some (readU32 b off) else none

/-- The `locations`-supplied branch of `search`: for each address in order,
await `readMemory(loc, 4, pid)`, read the word at offset 0 (a short buffer
throws a `RangeError`), and keep the address when the word equals `value`;
any failed read rejects the whole call with that error. -/
def searchLocations (readMem : Nat → Nat → Nat → Except String (List Nat))
    (pid value : Nat) : List Nat → Except String (List Nat)
  | [] => .ok []
  | loc :: rest =>
      match readMem loc 4 pid with
      | .error e => .error e
      | .ok data =>
          match readU32LE data 0 with
          | none => .error "RangeError: Offset is outside the bounds of the DataView"
          | some v =>
              match searchLocations readMem pid value rest with
              | .error e => .error e
              | .ok tail => .ok (if v = value then loc :: tail else tail)

/-- The per-region loop of `search`'s map-driven branch:
`for (let i = 0; i < mem.byteLength; i += 4)` reading the word at `i`
(`getUint32` throws a `RangeError` when `i + 4` exceeds the buffer) and
collecting `region.start + i` on a match. -/
def scanRegionFrom (mem : List Nat) (value start i : Nat) : Except String (List Nat) :=
  if _h : i < mem.length then
    match readU32LE mem i with
    | none => .error "RangeError: Offset is outside the bounds of the DataView"
    | some v =>
        match scanRegionFrom mem value start (i + 4) with
        | .error e => .error e
        | .ok rest => .ok (if v = value then (start + i) :: rest else rest)
  else
    .ok []
  termination_by mem.length - i
  decreasing_by omega

/-- Scan one region's returned buffer from offset 0. -/
def scanRegion (mem : List Nat) (value start : Nat) : Except String (List Nat) :=
  scanRegionFrom mem value start 0

/-- `search(client, pid, value, locations?)`: with `locations`, the
per-address branch; without, fetch the memory layout and scan each region's
full buffer sequentially, concatenating matches in region order. -/
def search (readMem : Nat → Nat → Nat → Except String (List Nat))
    (memlayout : Except String (List MemRegion)) (pid value : Nat)
    (locations : Option (List Nat)) : Except String (List Nat) :=
  match locations with
  | some locs => searchLocations readMem pid value locs
  | none => do
      let memorymap ← memlayout
      memorymap.foldlM (fun acc region => do
          let mem ← readMem region.start region.size pid
          let found ← scanRegion mem value region.start
          pure (acc ++ found)) []

/-! ## Request-table lemmas -/

theorem promLookup_insert_self (m : PromMap) (k : Nat) (v : String) :
    promLookup (promInsert m k v) k = some v := by
  simp [promInsert, promLookup]

theorem promLookup_erase_self (m : PromMap) (k : Nat) :
    promLookup (promErase m k) k = none := by
  induction m with
  | nil => rfl
  | cons p rest ih =>
      obtain ⟨a, b⟩ := p
      by_cases h : a = k
      · simpa [promErase, List.filter_cons, h, ne_eq, decide_not] using ih
      · simp only [promErase, List.filter_cons, ne_eq, decide_not] at ih ⊢
        simp [promLookup, h, ih]

theorem promLookup_erase_ne (m : PromMap) (k k' : Nat) (h : k' ≠ k) :
    promLookup (promErase m k) k' = promLookup m k' := by
  induction m with
  | nil => rfl
  | cons p rest ih =>
      obtain ⟨a, b⟩ := p
      by_cases ha : a = k
      · subst ha
        simp only [promErase, List.filter_cons, ne_eq, decide_not] at ih ⊢
        simp [promLookup, ih, Ne.symm h]
      · simp only [promErase, List.filter_cons, ne_eq, decide_not] at ih ⊢
        simp [promLookup, ha, ih]

/-! ## `handlePacket` step lemmas -/

theorem handlePacketStep_cmd0_none (st : ClientState) (seq : Nat) (data : Option (List Nat))
    (hl : promLookup st.promises seq = none) :
    handlePacketStep st 0 seq data = .ok ({ st with canSendHeartbeat := true }, []) := by
  unfold handlePacketStep
  rw [if_pos rfl, hl]

theorem handlePacketStep_cmd0_some (st : ClientState) (seq : Nat) (data : Option (List Nat))
    (t : String) (hl : promLookup st.promises seq = some t) :
    handlePacketStep st 0 seq data =
      match dispatchByKind t seq (packetLines data) with
      | .error e => .error e
      | .ok evs => .ok ({ st with canSendHeartbeat := true }, evs) := by
  unfold handlePacketStep
  rw [if_pos rfl, hl]

theorem handlePacketStep_cmd9 (st : ClientState) (seq : Nat) (data : Option (List Nat)) :
    handlePacketStep st 9 seq data = .ok (st, handleReadMemoryData st seq data) :=
  rfl

theorem handlePacketStep_other (st : ClientState) (cmd seq : Nat) (data : Option (List Nat))
    (h0 : cmd ≠ 0) (h9 : cmd ≠ 9) :
    handlePacketStep st cmd seq data = .ok (st, []) := by
  unfold handlePacketStep
  rw [if_neg h0, if_neg h9]

/-- Decomposition of a successful `handlePacket` run into its `switch` part
and the final keyed-by-`seq` deletion. -/
theorem handlePacket_ok_iff (st : ClientState) (cmd seq : Nat) (data : Option (List Nat))
    (st' : ClientState) (evs : List RpEvent) :
    handlePacket st cmd seq data = .ok (st', evs) ↔
      ∃ r : ClientState × List RpEvent,
        handlePacketStep st cmd seq data = .ok r ∧
        st' = { r.1 with promises := promErase r.1.promises seq } ∧ evs = r.2 := by
  unfold handlePacket
  rcases hs : handlePacketStep st cmd seq data with e | r
  · simp
  · simp only [Except.ok.injEq, Prod.mk.injEq]
    constructor
    · rintro ⟨h1, h2⟩
      exact ⟨r, rfl, h1.symm, h2.symm⟩
    · rintro ⟨r', hr', h1, h2⟩
      cases hr'
      exact ⟨h1.symm, h2.symm⟩

/-- A cmd-0 `switch` that did not throw leaves the client in the
flag-raised state with an untouched table. -/
theorem handlePacketStep_cmd0_flag (st : ClientState) (seq : Nat) (data : Option (List Nat))
    (r : ClientState × List RpEvent) (h : handlePacketStep st 0 seq data = .ok r) :
    r.1 = { st with canSendHeartbeat := true } := by
  rcases hl : promLookup st.promises seq with _ | t
  · rw [handlePacketStep_cmd0_none st seq data hl] at h
    cases h
    rfl
  · rw [handlePacketStep_cmd0_some st seq data t hl] at h
    rcases hd : dispatchByKind t seq (packetLines data) with e | evs <;> rw [hd] at h
    · cases h
    · cases h
      rfl

/-! ## C2 — teardown and the request table -/

/-- **C2, counterexample.**  A connection holding one registered pending
request (key 2000, kind `memory`) and no queued reassembler read: the
socket-close teardown path emits no failure at all — in particular no
connection-closed rejection of the pending request — and the entry is
still registered afterwards, so the outstanding request is *not* failed on
teardown, contradicting the claim. -/
theorem c2_counterexample :
    (Connection.onClose ⟨⟨3000, true, [(2000, "memory")]⟩, ⟨[], [], false⟩, true⟩).2 = [] ∧
    promLookup
      (Connection.onClose ⟨⟨3000, true, [(2000, "memory")]⟩, ⟨[], [], false⟩, true⟩).1.client.promises
      2000 = some "memory" :=
  ⟨rfl, rfl⟩

/-- **C2, amended.**  On close or fatal decode error the teardown path
cancels the heartbeat timer, marks the socket disconnected and fails every
outstanding *reassembler read* with a connection-closed error; the Request
Table is left untouched — registered PendingRequests are not failed and
remain in the table unresolved. -/
theorem c2_teardown_rejects_reads_only (c : Connection) :
    (Connection.onClose c).2 =
      c.sockBuf.nextPromises.map (fun p => SockEvent.rejected p.id "Connection closed.") ∧
    (Connection.onClose c).1.client = c.client ∧
    (Connection.onClose c).1.heartbeatArmed = false ∧
    (Connection.onClose c).1.sockBuf.disconnected = true ∧
    (Connection.onClose c).1.sockBuf.nextPromises = [] := by
  simp [Connection.onClose, SocketBase.onDisconnect, NtrClient.disconnect]

/-! ## C3 — magic mismatch and the decode loop -/

/-- **C3, counterexample.**  An 84-byte header with magic 0 followed by a
complete valid frame: the decode loop makes no dispatch at all and exits
(`halted`), even though the valid frame alone would have been dispatched —
so a frame fed after a bad-magic frame is *not* decoded, contradicting the
claim that framing resumes at the next 84-byte boundary. -/
theorem c3_counterexample :
    handleDataLoop 3 (encodeHeader 0 1000 0 0 [] 0 ++ encodeHeader 0x12345678 1000 0 8 [] 0) =
      ([], .halted) ∧
    handleDataLoop 3 (encodeHeader 0x12345678 1000 0 8 [] 0) =
      ([⟨8, 1000, none⟩], .waiting) :=
  ⟨rfl, rfl⟩

/-- **C3, amended.**  For every received 84-byte header whose magic field is
not 0x12345678, the frame is silently dropped without raising an error —
but the decode loop returns without re-arming itself: it exits (`halted`),
and no subsequent bytes (valid frames included) are ever decoded or
dispatched. -/
theorem c3_bad_magic_halts (fuel : Nat) (hdr rest : List Nat)
    (hlen : hdr.length = 84) (hmagic : readU32 hdr 0 ≠ 0x12345678) :
    handleDataLoop (fuel + 1) (hdr ++ rest) = ([], .halted) := by
  rw [handleDataLoop]
  have h1 : ¬ (hdr ++ rest).length < 84 := by simp [List.length_append, hlen]
  rw [if_neg h1, List.take_left' hlen]
  simp [hmagic]

/-- **C3, witness** for `c3_bad_magic_halts` at a concrete zero-magic
header. -/
theorem c3_witness :
    handleDataLoop 5 (encodeHeader 0 2000 0 5 [] 0 ++ encodeHeader 0x12345678 2000 0 5 [] 0) =
      ([], .halted) :=
  c3_bad_magic_halts 4 (encodeHeader 0 2000 0 5 [] 0) (encodeHeader 0x12345678 2000 0 5 [] 0)
    (by rfl) (by decide)

/-! ## C4 — reassembler resolution order and slicing -/

/-- **C4.**  Replaying two queued `read(2)` requests against `feed [0,1,2]`
then `feed [3]` (total fed = total requested): the source resolves the
*second* read already during the first feed, and with the single byte
`[2]` instead of its 2-byte slice `[2, 3]` — `receiveData`'s resolution
loop compares each queued length against the whole buffer length instead
of the bytes remaining past `startOffset`, and `subarray`'s clamping then
produces a short read.  This contradicts the claimed exact-slice,
in-order resolution. -/
theorem c4_reassembler_short_read_trace :
    runOps ⟨[], [], false⟩ 0 [.read 2, .read 2, .feed [0, 1, 2], .feed [3]] =
      (⟨[3], [], false⟩, [.resolved 0 [0, 1], .resolved 1 [2]]) :=
  rfl

/-! ## C7 — heartbeat permission flag -/

/-- **C7.**  A heartbeat tick with the permission flag set clears the flag
and sends exactly one bare `(type 0, cmd 0)` packet with all-zero
arguments and no payload; a tick with the flag clear sends nothing; two
consecutive ticks send exactly one packet when the flag was set (and none
when it was clear); and `handlePacket` sets the flag back to true exactly
for cmd-0 frames, leaving it unchanged for every other cmd. -/
theorem c7_heartbeat_single_inflight (st st2 : ClientState) (seq : Nat)
    (data : Option (List Nat)) :
    (st.canSendHeartbeat = true →
      NtrClient.heartbeat st =
        ({ st with canSendHeartbeat := false, seqNumber := st.seqNumber + 1000 },
         [⟨0x12345678, st.seqNumber % 2 ^ 32, 0, 0, List.replicate 16 0, 0⟩])) ∧
    (st.canSendHeartbeat = false → NtrClient.heartbeat st = (st, [])) ∧
    (((NtrClient.heartbeat st).2 ++ (NtrClient.heartbeat (NtrClient.heartbeat st).1).2).length =
      if st.canSendHeartbeat then 1 else 0) ∧
    (∀ st' evs, handlePacket st2 0 seq data = .ok (st', evs) → st'.canSendHeartbeat = true) ∧
    (∀ cmd st' evs, cmd ≠ 0 → handlePacket st2 cmd seq data = .ok (st', evs) →
      st'.canSendHeartbeat = st2.canSendHeartbeat) := by
  refine ⟨?_, ?_, ?_, ?_, ?_⟩
  · intro h
    simp [NtrClient.heartbeat, NtrClient.sendPacket, h, padArgs16, List.replicate]
  · intro h
    simp [NtrClient.heartbeat, h]
  · by_cases h : st.canSendHeartbeat <;>
      simp [NtrClient.heartbeat, NtrClient.sendPacket, h]
  · intro st' evs h
    obtain ⟨r, hs, hst, -⟩ := (handlePacket_ok_iff st2 0 seq data st' evs).mp h
    rw [hst, handlePacketStep_cmd0_flag st2 seq data r hs]
  · intro cmd st' evs hcmd h
    obtain ⟨r, hs, hst, -⟩ := (handlePacket_ok_iff st2 cmd seq data st' evs).mp h
    by_cases h9 : cmd = 9
    · subst h9
      rw [handlePacketStep_cmd9] at hs
      cases hs
      rw [hst]
    · rw [handlePacketStep_other st2 cmd seq data hcmd h9] at hs
      cases hs
      rw [hst]

/-- **C7, witness** for `c7_heartbeat_single_inflight` at the initial
client state and a cmd-9 frame. -/
theorem c7_witness :
    NtrClient.heartbeat initialState =
      ({ initialState with canSendHeartbeat := false, seqNumber := 1000 + 1000 },
       [⟨0x12345678, 1000 % 2 ^ 32, 0, 0, List.replicate 16 0, 0⟩]) ∧
    NtrClient.heartbeat ⟨5000, false, []⟩ = (⟨5000, false, []⟩, []) :=
  ⟨(c7_heartbeat_single_inflight initialState initialState 0 none).1 rfl,
   (c7_heartbeat_single_inflight ⟨5000, false, []⟩ initialState 0 none).2.1 rfl⟩

/-! ## C9 — remote-play encoding -/

/-- **C9.**  The remote-play frame does not depend on `qosValue`: the
computed bandwidth value `qosValue * 1024 * 1024 / 8` is never written
into the packet, whose argument words are exactly the packed priority
value `priorityMode << 8 | priorityFactor` and `quality` (zero-padded),
contradicting the claim that a derived bandwidth value is encoded. -/
theorem c9_remoteplay_ignores_qos (st : ClientState)
    (priorityMode priorityFactor quality qosValue qosValue2 : Nat) :
    NtrClient.remoteplay st priorityMode priorityFactor quality qosValue =
      NtrClient.remoteplay st priorityMode priorityFactor quality qosValue2 ∧
    (NtrClient.remoteplay st priorityMode priorityFactor quality qosValue).2 =
      ⟨0x12345678, st.seqNumber % 2 ^ 32, 0, 901,
       padArgs16 [Nat.lor (Nat.shiftLeft priorityMode 8) priorityFactor, quality], 0⟩ := by
  constructor <;> norm_num [NtrClient.remoteplay, NtrClient.sendPacket]

/-! ## C5 — matched-entry removal -/

/-- **C5, counterexample.**  A table holding the entry `(2000, memory)`
(as registered by a `readMemory` sent with frame seq 1000): the matching
cmd-9 frame with seq 1000 resolves that entry, yet the resulting table
still contains it — the deletion step used the frame's own seq (1000), so
the matched key 2000 still maps to the entry immediately after its
resolution, contradicting the claim. -/
theorem c5_counterexample :
    handlePacket ⟨3000, true, [(2000, "memory")]⟩ 9 1000 (some [42]) =
      .ok (⟨3000, true, [(2000, "memory")]⟩, [.resolve 2000 (.memoryBytes [42])]) :=
  rfl

/-- **C5, amended.**  A cmd-0-matched entry is removed immediately after the
frame is handled (the frame's own `seq` is deleted), but a cmd-9-matched
entry — keyed by the frame's seq plus 1000 — is resolved or rejected
*without* being removed: it still maps afterwards, while the entry keyed by
the frame's own seq, if any, is removed without being resolved. -/
theorem c5_matched_entry_removal (st : ClientState) (seq : Nat)
    (data : Option (List Nat)) (t : String) :
    (∀ st' evs, handlePacket st 0 seq data = .ok (st', evs) →
        promLookup st'.promises seq = none) ∧
    (promLookup st.promises (seq + 1000) = some t →
      ∃ st' evs, handlePacket st 9 seq data = .ok (st', evs) ∧ evs ≠ [] ∧
        (∀ e ∈ evs, RpEvent.key e = seq + 1000) ∧
        promLookup st'.promises (seq + 1000) = some t ∧
        promLookup st'.promises seq = none) := by
  constructor
  · intro st' evs h
    obtain ⟨r, _, hst, -⟩ := (handlePacket_ok_iff st 0 seq data st' evs).mp h
    rw [hst]
    exact promLookup_erase_self _ _
  · intro hl
    refine ⟨{ st with promises := promErase st.promises seq },
      handleReadMemoryData st seq data,
      (handlePacket_ok_iff st 9 seq data _ _).mpr
        ⟨(st, handleReadMemoryData st seq data), handlePacketStep_cmd9 st seq data, rfl, rfl⟩,
      ?_, ?_, ?_, ?_⟩
    · unfold handleReadMemoryData
      rw [hl]
      cases data <;> simp
    · unfold handleReadMemoryData
      rw [hl]
      cases data <;> simp [RpEvent.key]
    · show promLookup (promErase st.promises seq) (seq + 1000) = some t
      rw [promLookup_erase_ne st.promises seq (seq + 1000) (by omega)]
      exact hl
    · exact promLookup_erase_self _ _

/-- **C5, witness** for `c5_matched_entry_removal` at a concrete state with
a registered memory request. -/
theorem c5_witness :
    ∃ st' evs,
      handlePacket ⟨3000, true, [(2000, "memory")]⟩ 9 1000 (some [7]) = .ok (st', evs) ∧
      evs ≠ [] ∧ (∀ e ∈ evs, RpEvent.key e = 1000 + 1000) ∧
      promLookup st'.promises (1000 + 1000) = some "memory" ∧
      promLookup st'.promises 1000 = none :=
  (c5_matched_entry_removal ⟨3000, true, [(2000, "memory")]⟩ 1000 (some [7]) "memory").2 rfl

/-! ## C6 — parse failures stay local -/

theorem resolveOr_ok (seq : Nat) (msg : String) (p : Option RespValue) :
    ∃ evs, resolveOr seq msg p = .ok evs ∧ ∀ e ∈ evs, RpEvent.key e = seq := by
  cases p <;> exact ⟨_, rfl, by simp [RpEvent.key]⟩

theorem handleProcesses_some (seq : Nat) (l : List String) :
    ∃ evs, handleProcesses seq (some l) = .ok evs ∧ ∀ e ∈ evs, RpEvent.key e = seq := by
  by_cases h1 : l.getLast? ≠ some "end of process list."
  · refine ⟨[.reject seq "Unexpected reply for process list."], ?_, by simp [RpEvent.key]⟩
    simp only [handleProcesses]
    rw [if_pos h1]
  · obtain ⟨evs, he, hk⟩ := resolveOr_ok seq
      "Response does not match expected format for process list."
      ((l.dropLast.mapM parseProcessLine).map RespValue.processes)
    refine ⟨evs, ?_, hk⟩
    simp only [handleProcesses]
    rw [if_neg h1]
    exact he

theorem handleThreads_some (seq : Nat) (l : List String) :
    ∃ evs, handleThreads seq (some l) = .ok evs ∧ ∀ e ∈ evs, RpEvent.key e = seq := by
  unfold handleThreads
  exact resolveOr_ok _ _ _

theorem handleMemlayout_some (seq : Nat) (l : List String) :
    ∃ evs, handleMemlayout seq (some l) = .ok evs ∧ ∀ e ∈ evs, RpEvent.key e = seq := by
  unfold handleMemlayout
  exact resolveOr_ok _ _ _

theorem handleHandles_some (seq : Nat) (l : List String) :
    ∃ evs, handleHandles seq (some l) = .ok evs ∧ ∀ e ∈ evs, RpEvent.key e = seq := by
  unfold handleHandles
  exact resolveOr_ok _ _ _

theorem handleHello_some (seq : Nat) (l : List String) :
    ∃ evs, handleHello seq (some l) = .ok evs ∧ ∀ e ∈ evs, RpEvent.key e = seq := by
  by_cases h : l = ["hello"]
  · exact ⟨[.resolve seq .unit], by simp [handleHello, h], by simp [RpEvent.key]⟩
  · exact ⟨[.reject seq ("Unexpected reply to hello: " ++ String.intercalate "\n" l)],
      by simp [handleHello, h], by simp [RpEvent.key]⟩

theorem handleReadMemoryText_some (seq : Nat) (l : List String) :
    ∃ evs, handleReadMemoryText seq (some l) = .ok evs ∧ ∀ e ∈ evs, RpEvent.key e = seq := by
  by_cases h : l = ["finished"]
  · exact ⟨[], by simp [handleReadMemoryText, h], by simp⟩
  · exact ⟨[.reject seq "Did not receive memory."],
      by simp [handleReadMemoryText, h], by simp [RpEvent.key]⟩

/-- With a line list that is not JS `null`, no registered kind's handler
ever throws, and every event it emits targets the frame's own seq. -/
theorem dispatchByKind_some_ok (t : String) (seq : Nat) (l : List String) :
    ∃ evs, dispatchByKind t seq (some l) = .ok evs ∧ ∀ e ∈ evs, RpEvent.key e = seq := by
  unfold dispatchByKind
  by_cases h1 : t = "processes"
  · simpa [h1] using handleProcesses_some seq l
  · by_cases h2 : t = "threads"
    · simpa [h1, h2] using handleThreads_some seq l
    · by_cases h3 : t = "memlayout"
      · simpa [h1, h2, h3] using handleMemlayout_some seq l
      · by_cases h4 : t = "handle"
        · simpa [h1, h2, h3, h4] using handleHandles_some seq l
        · by_cases h5 : t = "hello"
          · simpa [h1, h2, h3, h4, h5] using handleHello_some seq l
          · by_cases h6 : t = "memory"
            · simpa [h1, h2, h3, h4, h5, h6] using handleReadMemoryText_some seq l
            · exact ⟨[.reject seq ("No handler registered for " ++ t ++ ".")],
                by simp [h1, h2, h3, h4, h5, h6], by simp [RpEvent.key]⟩

/-- **C6, counterexample.**  A pending `hello` request (key 5000) answered
by a cmd-0 frame whose 1-byte payload is a single line feed: the payload
decodes to no non-empty line, `match(/^.+$/gm)` returns `null`, and
`handleHello`'s `lines.length` access throws a TypeError that escapes the
parser boundary — `handlePacket` propagates the exception to the decode
loop's `catch`, which disconnects, contradicting the claim that such a
payload only rejects the one pending request. -/
theorem c6_counterexample :
    handlePacket ⟨6000, true, [(5000, "hello")]⟩ 0 5000 (some [10]) = .error () :=
  rfl

/-- **C6, amended.**  For every cmd-0 payload that decodes to at least one
non-empty line — and for payload-less cmd-0 frames — the registered
response parser never throws past the parser boundary: `handlePacket`
succeeds, every event it emits targets only the matched request's key, and
every other table entry is left exactly as it was.  (For a nonempty payload
that decodes to *no* non-empty line, the processes, hello and memory
handlers instead throw a TypeError that escapes to the decode loop, as
`c6_counterexample` shows.) -/
theorem c6_parse_failures_are_local (st : ClientState) (seq : Nat) (t : String)
    (data : Option (List Nat))
    (hreg : promLookup st.promises seq = some t)
    (hlines : ∃ l, packetLines data = some l) :
    ∃ st' evs, handlePacket st 0 seq data = .ok (st', evs) ∧
      (∀ e ∈ evs, RpEvent.key e = seq) ∧
      ∀ k, k ≠ seq → promLookup st'.promises k = promLookup st.promises k := by
  obtain ⟨l, hl⟩ := hlines
  obtain ⟨evs, he, hk⟩ := dispatchByKind_some_ok t seq l
  have hstep : handlePacketStep st 0 seq data =
      .ok ({ st with canSendHeartbeat := true }, evs) := by
    rw [handlePacketStep_cmd0_some st seq data t hreg, hl, he]
  refine ⟨{ st with canSendHeartbeat := true, promises := promErase st.promises seq }, evs,
    (handlePacket_ok_iff st 0 seq data _ _).mpr
      ⟨({ st with canSendHeartbeat := true }, evs), hstep, rfl, rfl⟩, hk, ?_⟩
  intro k hk2
  exact promLookup_erase_ne st.promises seq k hk2

/-- **C6, witness** for `c6_parse_failures_are_local`: a pending handle
request answered by a malformed payload (the single line `oops`). -/
theorem c6_witness :
    ∃ st' evs,
      handlePacket ⟨6000, true, [(5000, "handle"), (4000, "hello")]⟩ 0 5000
          (some [111, 111, 112, 115]) = .ok (st', evs) ∧
      (∀ e ∈ evs, RpEvent.key e = 5000) ∧
      ∀ k, k ≠ 5000 →
        promLookup st'.promises k =
          promLookup [(5000, "handle"), (4000, "hello")] k :=
  c6_parse_failures_are_local ⟨6000, true, [(5000, "handle"), (4000, "hello")]⟩ 5000 "handle"
    (some [111, 111, 112, 115]) rfl ⟨["oops"], rfl⟩

/-! ## C1 — registration offset and cmd-9 correlation -/

/-- **C1.**  Every request/response command registers its pending entry
under the sequence value as it stands after `sendPacket` returned — the
sent frame's seq plus 1000 — with its expected kind; and a cmd-9 frame is
looked up under its own seq plus 1000, so a cmd-9 frame whose seq equals
the seq originally sent by `readMemory` resolves exactly that request's
entry with the raw payload bytes. -/
theorem c1_registration_offset_and_cmd9 (st : ClientState)
    (addr size pid pid2 pid3 pid4 : Nat) (d : List Nat)
    (h : st.seqNumber < 2 ^ 32) :
    ((NtrClient.hello st).key = (NtrClient.hello st).packet.seq + 1000 ∧
      promLookup (NtrClient.hello st).state.promises (NtrClient.hello st).key =
        some "hello") ∧
    ((NtrClient.listProcesses st).key = (NtrClient.listProcesses st).packet.seq + 1000 ∧
      promLookup (NtrClient.listProcesses st).state.promises (NtrClient.listProcesses st).key =
        some "processes") ∧
    ((NtrClient.listThreads st pid2).key = (NtrClient.listThreads st pid2).packet.seq + 1000 ∧
      promLookup (NtrClient.listThreads st pid2).state.promises
        (NtrClient.listThreads st pid2).key = some "threads") ∧
    ((NtrClient.getMemlayout st pid3).key = (NtrClient.getMemlayout st pid3).packet.seq + 1000 ∧
      promLookup (NtrClient.getMemlayout st pid3).state.promises
        (NtrClient.getMemlayout st pid3).key = some "memlayout") ∧
    ((NtrClient.queryHandle st pid4).key = (NtrClient.queryHandle st pid4).packet.seq + 1000 ∧
      promLookup (NtrClient.queryHandle st pid4).state.promises
        (NtrClient.queryHandle st pid4).key = some "handle") ∧
    ((NtrClient.readMemory st addr size pid).key =
        (NtrClient.readMemory st addr size pid).packet.seq + 1000 ∧
      promLookup (NtrClient.readMemory st addr size pid).state.promises
        (NtrClient.readMemory st addr size pid).key = some "memory") ∧
    handlePacket (NtrClient.readMemory st addr size pid).state 9
        (NtrClient.readMemory st addr size pid).packet.seq (some d) =
      .ok ({ (NtrClient.readMemory st addr size pid).state with
               promises := promErase (NtrClient.readMemory st addr size pid).state.promises
                 (NtrClient.readMemory st addr size pid).packet.seq },
           [.resolve (NtrClient.readMemory st addr size pid).key (.memoryBytes d)]) := by
  have hmod : st.seqNumber % 2 ^ 32 = st.seqNumber := Nat.mod_eq_of_lt h
  refine ⟨⟨?_, ?_⟩, ⟨?_, ?_⟩, ⟨?_, ?_⟩, ⟨?_, ?_⟩, ⟨?_, ?_⟩, ⟨?_, ?_⟩, ?_⟩ <;>
    simp only [NtrClient.hello, NtrClient.listProcesses, NtrClient.listThreads,
      NtrClient.getMemlayout, NtrClient.queryHandle, NtrClient.readMemory,
      requestCommand, NtrClient.sendPacket, hmod]
  · exact promLookup_insert_self _ _ _
  · exact promLookup_insert_self _ _ _
  · exact promLookup_insert_self _ _ _
  · exact promLookup_insert_self _ _ _
  · exact promLookup_insert_self _ _ _
  · exact promLookup_insert_self _ _ _
  · unfold handlePacket
    rw [handlePacketStep_cmd9]
    unfold handleReadMemoryData
    rw [promLookup_insert_self]

/-- **C1, witness** for `c1_registration_offset_and_cmd9` at the initial
client state. -/
theorem c1_witness :
    ((NtrClient.hello initialState).key = (NtrClient.hello initialState).packet.seq + 1000 ∧
      promLookup (NtrClient.hello initialState).state.promises
        (NtrClient.hello initialState).key = some "hello") ∧
    ((NtrClient.listProcesses initialState).key =
        (NtrClient.listProcesses initialState).packet.seq + 1000 ∧
      promLookup (NtrClient.listProcesses initialState).state.promises
        (NtrClient.listProcesses initialState).key = some "processes") ∧
    ((NtrClient.listThreads initialState 2).key =
        (NtrClient.listThreads initialState 2).packet.seq + 1000 ∧
      promLookup (NtrClient.listThreads initialState 2).state.promises
        (NtrClient.listThreads initialState 2).key = some "threads") ∧
    ((NtrClient.getMemlayout initialState 3).key =
        (NtrClient.getMemlayout initialState 3).packet.seq + 1000 ∧
      promLookup (NtrClient.getMemlayout initialState 3).state.promises
        (NtrClient.getMemlayout initialState 3).key = some "memlayout") ∧
    ((NtrClient.queryHandle initialState 4).key =
        (NtrClient.queryHandle initialState 4).packet.seq + 1000 ∧
      promLookup (NtrClient.queryHandle initialState 4).state.promises
        (NtrClient.queryHandle initialState 4).key = some "handle") ∧
    ((NtrClient.readMemory initialState 512 4 1).key =
        (NtrClient.readMemory initialState 512 4 1).packet.seq + 1000 ∧
      promLookup (NtrClient.readMemory initialState 512 4 1).state.promises
        (NtrClient.readMemory initialState 512 4 1).key = some "memory") ∧
    handlePacket (NtrClient.readMemory initialState 512 4 1).state 9
        (NtrClient.readMemory initialState 512 4 1).packet.seq (some [9, 9, 9, 9]) =
      .ok ({ (NtrClient.readMemory initialState 512 4 1).state with
               promises := promErase (NtrClient.readMemory initialState 512 4 1).state.promises
                 (NtrClient.readMemory initialState 512 4 1).packet.seq },
           [.resolve (NtrClient.readMemory initialState 512 4 1).key (.memoryBytes [9, 9, 9, 9])]) :=
  c1_registration_offset_and_cmd9 initialState 512 4 1 2 3 4 [9, 9, 9, 9] (by decide)

/-! ## C8 — scanner with explicit locations -/

/-- Unfolding of `searchLocations` on a head location whose read succeeds
with a buffer holding at least one word. -/
theorem searchLocations_cons_ok (readMem : Nat → Nat → Nat → Except String (List Nat))
    (pid value loc : Nat) (rest : List Nat) (data : List Nat)
    (hr : readMem loc 4 pid = .ok data) (hlen : 4 ≤ data.length) :
    searchLocations readMem pid value (loc :: rest) =
      match searchLocations readMem pid value rest with
      | .error e => .error e
      | .ok tail => .ok (if readU32 data 0 = value then loc :: tail else tail) := by
  have hu : readU32LE data 0 = some (readU32 data 0) := by
    unfold readU32LE
    rw [if_pos (by omega)]
  show ((match readMem loc 4 pid with
    | Except.error e => Except.error e
    | Except.ok data =>
        match readU32LE data 0 with
        | none => Except.error "RangeError: Offset is outside the bounds of the DataView"
        | some v =>
            match searchLocations readMem pid value rest with
            | Except.error e => Except.error e
            | Except.ok tail => Except.ok (if v = value then loc :: tail else tail)) :
      Except String (List Nat)) = _
  rw [hr]
  show ((match readU32LE data 0 with
    | none => Except.error "RangeError: Offset is outside the bounds of the DataView"
    | some v =>
        match searchLocations readMem pid value rest with
        | Except.error e => Except.error e
        | Except.ok tail => Except.ok (if v = value then loc :: tail else tail)) :
      Except String (List Nat)) = _
  rw [hu]

/-- **C8.**  With an explicit `locations` list: when every 4-byte read
succeeds (returning a buffer holding at least one word), the result is
exactly the input-ordered subsequence of addresses whose little-endian
word equals the target; and when the read of one location fails, the whole
search fails with that read's error and yields no partial result. -/
theorem c8_search_with_locations (readMem : Nat → Nat → Nat → Except String (List Nat))
    (pid value : Nat) (locs pre post : List Nat) (badLoc : Nat) (e : String)
    (f : Nat → List Nat)
    (hok : ∀ loc ∈ locs, readMem loc 4 pid = .ok (f loc) ∧ 4 ≤ (f loc).length)
    (hpre : ∀ loc ∈ pre, readMem loc 4 pid = .ok (f loc) ∧ 4 ≤ (f loc).length)
    (hbad : readMem badLoc 4 pid = .error e) :
    searchLocations readMem pid value locs =
      .ok (locs.filter (fun loc => readU32 (f loc) 0 = value)) ∧
    searchLocations readMem pid value (pre ++ badLoc :: post) = .error e := by
  constructor
  · clear hpre hbad
    induction locs with
    | nil => rfl
    | cons loc rest ih =>
        obtain ⟨hr, hlen⟩ := hok loc (by simp)
        rw [searchLocations_cons_ok readMem pid value loc rest (f loc) hr hlen,
          ih (fun l hl => hok l (by simp [hl]))]
        by_cases hv : readU32 (f loc) 0 = value <;> simp [List.filter_cons, hv]
  · clear hok
    induction pre with
    | nil =>
        rw [List.nil_append]
        show ((match readMem badLoc 4 pid with
          | Except.error e => Except.error e
          | Except.ok data =>
              match readU32LE data 0 with
              | none => Except.error "RangeError: Offset is outside the bounds of the DataView"
              | some v =>
                  match searchLocations readMem pid value post with
                  | Except.error e => Except.error e
                  | Except.ok tail => Except.ok (if v = value then badLoc :: tail else tail)) :
            Except String (List Nat)) = _
        rw [hbad]
    | cons loc rest ih =>
        obtain ⟨hr, hlen⟩ := hpre loc (by simp)
        rw [List.cons_append,
          searchLocations_cons_ok readMem pid value loc (rest ++ badLoc :: post) (f loc) hr hlen,
          ih (fun l hl => hpre l (by simp [hl]))]

/-- **C8, witness** for `c8_search_with_locations`: the spec's two-address
example (words 1 and 2, target 1) plus a failing third location. -/
theorem c8_witness :
    searchLocations
        (fun loc _ _ =>
          if loc = 100 then .ok [1, 0, 0, 0]
          else if loc = 200 then .ok [2, 0, 0, 0]
          else .error "fail")
        7 1 [100, 200] = .ok [100] ∧
    searchLocations
        (fun loc _ _ =>
          if loc = 100 then .ok [1, 0, 0, 0]
          else if loc = 200 then .ok [2, 0, 0, 0]
          else .error "fail")
        7 1 ([100] ++ 300 :: [200]) = .error "fail" := by
  have h := c8_search_with_locations
    (fun loc _ _ =>
      if loc = 100 then .ok [1, 0, 0, 0]
      else if loc = 200 then .ok [2, 0, 0, 0]
      else .error "fail")
    7 1 [100, 200] [100] [200] 300 "fail"
    (fun loc => if loc = 100 then [1, 0, 0, 0] else [2, 0, 0, 0])
    (by
      intro l hl
      simp only [List.mem_cons, List.not_mem_nil, or_false] at hl
      rcases hl with rfl | rfl
      · exact ⟨rfl, by norm_num⟩
      · exact ⟨rfl, by norm_num⟩)
    (by
      intro l hl
      simp only [List.mem_cons, List.not_mem_nil, or_false] at hl
      rcases hl with rfl
      exact ⟨rfl, by norm_num⟩)
    rfl
  exact ⟨h.1.trans (by rfl), h.2⟩

/-! ## C10 — region-scan loop bounds -/

theorem scanRegionFrom_ok (mem : List Nat) (value start : Nat) :
    ∀ n i, mem.length - i ≤ n → i % 4 = 0 → mem.length % 4 = 0 →
      ∃ r, scanRegionFrom mem value start i = .ok r := by
  intro n
  induction n with
  | zero =>
      intro i hn hi hlen
      rw [scanRegionFrom, dif_neg (by omega : ¬ i < mem.length)]
      exact ⟨[], rfl⟩
  | succ n ih =>
      intro i hn hi hlen
      by_cases hlt : i < mem.length
      · have hle : i + 4 ≤ mem.length := by omega
        have step : scanRegionFrom mem value start i =
            match scanRegionFrom mem value start (i + 4) with
            | .error e => .error e
            | .ok rest =>
                .ok (if readU32 mem i = value then (start + i) :: rest else rest) := by
          rw [scanRegionFrom, dif_pos hlt,
            show readU32LE mem i = some (readU32 mem i) from by
              unfold readU32LE
              rw [if_pos hle]]
        obtain ⟨r, hr⟩ := ih (i + 4) (by omega) (by omega) hlen
        rw [step, hr]
        exact ⟨_, rfl⟩
      · rw [scanRegionFrom, dif_neg hlt]
        exact ⟨[], rfl⟩

theorem scanRegionFrom_error (mem : List Nat) (value start : Nat)
    (hlen : mem.length % 4 ≠ 0) :
    ∀ n i, mem.length - i ≤ n → i % 4 = 0 → i ≤ mem.length →
      scanRegionFrom mem value start i =
        .error "RangeError: Offset is outside the bounds of the DataView" := by
  intro n
  induction n with
  | zero =>
      intro i hn hi hile
      omega
  | succ n ih =>
      intro i hn hi hile
      have hlt : i < mem.length := by omega
      by_cases hle : i + 4 ≤ mem.length
      · have step : scanRegionFrom mem value start i =
            match scanRegionFrom mem value start (i + 4) with
            | .error e => .error e
            | .ok rest =>
                .ok (if readU32 mem i = value then (start + i) :: rest else rest) := by
          rw [scanRegionFrom, dif_pos hlt,
            show readU32LE mem i = some (readU32 mem i) from by
              unfold readU32LE
              rw [if_pos hle]]
        rw [step, ih (i + 4) (by omega) (by omega) (by omega)]
      · rw [scanRegionFrom, dif_pos hlt,
          show readU32LE mem i = none from by
            unfold readU32LE
            rw [if_neg hle]]

/-- **C10.**  The per-region scan loop steps `i` by 4 while `i` is below
the returned buffer's length and reads the word at `i`: every read stays
in bounds (the out-of-range branch is unreachable and the scan succeeds)
exactly when the buffer length is a multiple of 4; for any other length
the final iteration — offset `4 * (len / 4)`, which is still below `len` —
reads past the end of the buffer and the scan throws a RangeError. -/
theorem c10_scan_word_bounds :
    (∀ mem value start, (mem : List Nat).length % 4 = 0 →
      ∃ r, scanRegion mem value start = .ok r) ∧
    (∀ mem value start, (mem : List Nat).length % 4 ≠ 0 →
      scanRegion mem value start =
          .error "RangeError: Offset is outside the bounds of the DataView" ∧
        readU32LE mem (4 * (mem.length / 4)) = none ∧
        4 * (mem.length / 4) < mem.length) := by
  constructor
  · intro mem value start h4
    exact scanRegionFrom_ok mem value start mem.length 0 (by omega) (by omega) h4
  · intro mem value start h4
    refine ⟨scanRegionFrom_error mem value start h4 mem.length 0 (by omega) (by omega)
        (by omega), ?_, by omega⟩
    unfold readU32LE
    rw [if_neg (by omega)]

/-- **C10, witness** for `c10_scan_word_bounds`: an 8-byte buffer scans
without error; a 7-byte buffer throws with its final iteration at offset 4
reading past the end. -/
theorem c10_witness :
    (∃ r, scanRegion [1, 0, 0, 0, 2, 0, 0, 0] 1 4096 = .ok r) ∧
    (scanRegion [1, 0, 0, 0, 2, 0, 0] 1 4096 =
        .error "RangeError: Offset is outside the bounds of the DataView" ∧
      readU32LE [1, 0, 0, 0, 2, 0, 0] (4 * ((7 : Nat) / 4)) = none ∧
      4 * ((7 : Nat) / 4) < 7) :=
  ⟨c10_scan_word_bounds.1 [1, 0, 0, 0, 2, 0, 0, 0] 1 4096 (by decide),
   c10_scan_word_bounds.2 [1, 0, 0, 0, 2, 0, 0] 1 4096 (by decide)⟩

end NtrClientJS
